import Mathlib

/-!
Verification of the aleph-10 in-memory vector store.

This development is a shallow embedding of the vector memory store
implemented in src/memory/store.ts (class InMemoryVectorStore) together
with the data model of src/types/memory.ts.  JavaScript runtime values
are modelled as follows: numbers become rationals (every finite float is
a rational; NaN and infinities do not arise on the modelled paths),
strings become Lean strings, arrays become lists, and a JavaScript
object field that may be absent becomes an Option.  The floating point
cosine similarity is idealised over the real numbers.  JavaScript
truthiness is modelled exactly where the source tests it: the empty
string and the number 0 are falsy, every array is truthy.  Strict
equality between separately constructed arrays is reference inequality,
so it is modelled as false.  The persistence layer, which the store
treats as best effort and which never changes the observable in-memory
results, is omitted; the Map of items is modelled as an association
list in insertion order with the replace-or-append semantics of
JavaScript Map.set.
-/

namespace Aleph10

/-- Runtime JavaScript value stored in the open-ended metadata and
filter records: a number, a string, a boolean, or an array. -/
inductive JValue where
  | vNum (q : ℚ)
  | vStr (s : String)
  | vBool (b : Bool)
  | vArr (l : List JValue)

mutual

/-- Structural equality of runtime values, used only on the
specification side of refinement statements. -/
def jvalEq : JValue → JValue → Bool
  | .vNum a, .vNum b => a == b
  | .vStr a, .vStr b => a == b
  | .vBool a, .vBool b => a == b
  | .vArr a, .vArr b => jvalListEq a b
  | _, _ => false

/-- Structural equality of lists of runtime values. -/
def jvalListEq : List JValue → List JValue → Bool
  | [], [] => true
  | x :: xs, y :: ys => jvalEq x y && jvalListEq xs ys
  | _, _ => false

end

/-- JavaScript strict equality (the === and !== operator) between two
present values.  Primitives compare by value; arrays compare by object
reference, and the filter and the stored metadata are always separately
constructed objects, so an array never compares equal. -/
def jsStrictEq : JValue → JValue → Bool
  | .vNum a, .vNum b => a == b
  | .vStr a, .vStr b => a == b
  | .vBool a, .vBool b => a == b
  | _, _ => false

/-- Truthiness of a JavaScript number: 0 is falsy. -/
def numTruthy (q : ℚ) : Bool := q != 0

/-- Truthiness of a JavaScript string: the empty string is falsy. -/
def strTruthy (s : String) : Bool := s != ""

/-- Metadata record of a memory item as it exists at runtime.  The
TypeScript interface declares timestamp, source and tags as required,
but the update path can commit a metadata object missing any of them,
so each declared field is an Option; extra holds the open-ended
additional key and value pairs. -/
structure MemoryMetadata where
  timestamp : Option ℚ
  source : Option String
  tags : Option (List String)
  extra : List (String × JValue)

/-- Memory item: id, original text, metadata and embedding vector. -/
structure MemoryItem where
  id : String
  text : String
  metadata : MemoryMetadata
  embedding : List ℚ

/-- Item payload passed to add, which is a MemoryItem without an id. -/
structure ItemData where
  text : String
  metadata : MemoryMetadata
  embedding : List ℚ

/-- Partial update payload of update: each field is present or absent. -/
structure ItemPatch where
  text : Option String
  metadata : Option MemoryMetadata
  embedding : Option (List ℚ)

/-- Filter criteria of search: the four standard optional fields plus
the open-ended additional key and value pairs. -/
structure MemoryFilter where
  tags : Option (List String)
  source : Option String
  fromDate : Option ℚ
  toDate : Option ℚ
  extra : List (String × JValue)

/-- Error kinds raised by the store, from src/utils/errors.ts: a
dimension mismatch in cosineSimilarity carrying the two lengths, or a
wrapped failure of the embedding provider during update. -/
inductive VectorStoreError where
  | dimensionMismatch (la lb : Nat)
  | embeddingFailed (msg : String)

/-- Search result pairing an item with its similarity score. -/
structure SearchResult where
  item : MemoryItem
  score : ℝ

/-- The Map of items keyed by id, in insertion order. -/
abbrev Store := List (String × MemoryItem)

/-- Lookup in an association list of runtime values, modelling property
access on a plain JavaScript object. -/
def lookupJ : List (String × JValue) → String → Option JValue
  | [], _ => none
  | (k2, v) :: rest, k => if k2 = k then some v else lookupJ rest k

/-- Map.get: the value stored under a key, or none. -/
def mapGet : Store → String → Option MemoryItem
  | [], _ => none
  | (k2, v) :: rest, k => if k2 = k then some v else mapGet rest k

/-- Map.set: replace the entry of the key in place or append a new one. -/
def mapSet : Store → String → MemoryItem → Store
  | [], k, v => [(k, v)]
  | (k2, v2) :: rest, k, v =>
    if k2 = k then (k, v) :: rest else (k2, v2) :: mapSet rest k v

/-- Map.delete: remove the entry of the key, reporting whether it was
present. -/
def mapDelete : Store → String → Store × Bool
  | [], _ => ([], false)
  | (k2, v2) :: rest, k =>
    if k2 = k then (rest, true)
    else
      let r := mapDelete rest k
      ((k2, v2) :: r.1, r.2)

/-- Values of the Map in insertion order, as iterated by search. -/
def storeValues (m : Store) : List MemoryItem := m.map Prod.snd

/-- Keys of the store are pairwise distinct; this is the Map invariant. -/
def keysNodup (m : Store) : Prop := (m.map Prod.fst).Nodup

/-- InMemoryVectorStore.add: build the item from the payload and the
freshly generated id, store it under that id and return it.  The
random UUID produced by the source is taken as the parameter newId. -/
def addItem (m : Store) (newId : String) (x : ItemData) : MemoryItem × Store :=
  let memoryItem : MemoryItem :=
    { id := newId, text := x.text, metadata := x.metadata, embedding := x.embedding }
  (memoryItem, mapSet m newId memoryItem)

/-- Object spread of two open-ended records, as in a JavaScript
spread of old then patch: keys of the patch overwrite, keys only in
the old record keep their value and position, new keys are appended. -/
def mergeObj (old p : List (String × JValue)) : List (String × JValue) :=
  (old.map fun kv =>
    match lookupJ p kv.1 with
    | some v => (kv.1, v)
    | none => kv) ++
    p.filter fun kv => (lookupJ old kv.1).isNone

/-- Spread of the stored metadata with the metadata patch, written in
the source as a spread of item.metadata then updates.metadata: every
field present in the patch overwrites, absent fields are kept. -/
def mergeMetadata (old p : MemoryMetadata) : MemoryMetadata :=
  { timestamp := match p.timestamp with | some t => some t | none => old.timestamp
    source := match p.source with | some s => some s | none => old.source
    tags := match p.tags with | some t => some t | none => old.tags
    extra := mergeObj old.extra p.extra }

/-- Object.keys of the metadata patch is nonempty: at least one of the
declared fields is present or there is at least one extra entry. -/
def patchNonempty (p : MemoryMetadata) : Bool :=
  p.timestamp.isSome || p.source.isSome || p.tags.isSome || !p.extra.isEmpty

/-- Guard of the embedding recomputation in update, written in the
source as updates.text being truthy and updates.embedding falsy: the
new text is present and nonempty, and no embedding is supplied (an
array, even empty, is truthy, while an absent field is falsy). -/
def needsReembed (u : ItemPatch) : Bool :=
  (match u.text with
   | some t => strTruthy t
   | none => false) &&
    (match u.embedding with
     | some _ => false
     | none => true)

/-- InMemoryVectorStore.update: look the item up (absent id yields ok
none), spread the patch over it forcing the id, recompute the
embedding when the new text is truthy and no embedding is supplied
(wrapping a provider failure as a VectorStoreError and leaving the
store untouched), merge the metadata when the patch metadata is
present and nonempty, then commit.  The embedding provider is passed
as the function embed; the pair returned is the call result together
with the store after the call. -/
def update (embed : String → Except String (List ℚ)) (m : Store) (id : String)
    (u : ItemPatch) : Except VectorStoreError (Option MemoryItem) × Store :=
  match mapGet m id with
  | none => (.ok none, m)
  | some item =>
    let base : MemoryItem :=
      { id := id
        text := u.text.getD item.text
        metadata := u.metadata.getD item.metadata
        embedding := u.embedding.getD item.embedding }
    let withEmbed : Except VectorStoreError MemoryItem :=
      if needsReembed u then
        match u.text with
        | some t =>
          match embed t with
          | .ok e => .ok { base with embedding := e }
          | .error msg => .error (.embeddingFailed msg)
        | none => .ok base
      else .ok base
    match withEmbed with
    | .error e => (.error e, m)
    | .ok item2 =>
      let item3 : MemoryItem :=
        match u.metadata with
        | some p =>
          if patchNonempty p then { item2 with metadata := mergeMetadata item.metadata p }
          else item2
        | none => item2
      (.ok (some item3), mapSet m id item3)

/-- InMemoryVectorStore.delete: remove the id from the Map and report
whether an entry existed. -/
def deleteItem (m : Store) (id : String) : Bool × Store :=
  let r := mapDelete m id
  (r.2, r.1)

/-- InMemoryVectorStore.clear: the emptied collection. -/
def clearStore : Store := []

/-- Tags clause of matchesFilter: active only when the filter tags are
a nonempty array; it then requires the item metadata tags to be an
array sharing at least one element with the filter tags. -/
def tagsClauseOk (md : MemoryMetadata) (f : MemoryFilter) : Bool :=
  match f.tags with
  | some ts =>
    if ts.length > 0 then
      match md.tags with
      | some mts => ts.any fun t => mts.contains t
      | none => false
    else true
  | none => true

/-- Source clause of matchesFilter: active only when the filter source
is truthy, that is present and nonempty; it then requires strict
equality with the item source (an absent item source fails). -/
def sourceClauseOk (md : MemoryMetadata) (f : MemoryFilter) : Bool :=
  match f.source with
  | some s => if strTruthy s then md.source == some s else true
  | none => true

/-- Comparison of the item timestamp against a bound, as the source
compares metadata.timestamp with the JavaScript less-than: an absent
timestamp compares as false. -/
def tsLt (t : Option ℚ) (d : ℚ) : Bool :=
  match t with
  | some t0 => decide (t0 < d)
  | none => false

/-- Comparison of the item timestamp against a bound with the
JavaScript greater-than: an absent timestamp compares as false. -/
def tsGt (t : Option ℚ) (d : ℚ) : Bool :=
  match t with
  | some t0 => decide (d < t0)
  | none => false

/-- Lower bound clause of matchesFilter: active only when the filter
fromDate is truthy, that is present and nonzero; it then fails the
items whose timestamp is strictly below the bound. -/
def fromDateOk (md : MemoryMetadata) (f : MemoryFilter) : Bool :=
  match f.fromDate with
  | some d => if numTruthy d then !tsLt md.timestamp d else true
  | none => true

/-- Upper bound clause of matchesFilter: active only when the filter
toDate is truthy, that is present and nonzero; it then fails the items
whose timestamp is strictly above the bound. -/
def toDateOk (md : MemoryMetadata) (f : MemoryFilter) : Bool :=
  match f.toDate with
  | some d => if numTruthy d then !tsGt md.timestamp d else true
  | none => true

/-- Standard filter keys skipped by the custom metadata loop. -/
def isStdKey (k : String) : Bool :=
  k == "tags" || k == "source" || k == "fromDate" || k == "toDate"

/-- Property access metadata key on the stored metadata object, as the
source reads metadata with a dynamic key in the custom filter loop. -/
def mdIndex (md : MemoryMetadata) (k : String) : Option JValue :=
  if k = "timestamp" then md.timestamp.map .vNum
  else if k = "source" then md.source.map .vStr
  else if k = "tags" then md.tags.map fun ts => .vArr (ts.map .vStr)
  else lookupJ md.extra k

/-- Custom metadata clauses of matchesFilter: every non-standard entry
of the filter must be matched strictly by the item metadata under the
same key; an absent key fails. -/
def extraClausesOk (md : MemoryMetadata) (f : MemoryFilter) : Bool :=
  f.extra.all fun kv =>
    isStdKey kv.1 ||
      match mdIndex md kv.1 with
      | some w => jsStrictEq w kv.2
      | none => false

/-- InMemoryVectorStore.matchesFilter: the conjunction of the tags,
source, date range and custom metadata clauses. -/
def matchesFilter (item : MemoryItem) (f : MemoryFilter) : Bool :=
  tagsClauseOk item.metadata f && sourceClauseOk item.metadata f &&
    fromDateOk item.metadata f && toDateOk item.metadata f &&
    extraClausesOk item.metadata f

/-- Dot product accumulated by the loop of cosineSimilarity. -/
def dotProduct (a b : List ℚ) : ℚ := (List.zipWith (fun x y => x * y) a b).sum

/-- Sum of squares of a vector, the value normA of the source loop. -/
def normSq (a : List ℚ) : ℚ := dotProduct a a

/-- InMemoryVectorStore.cosineSimilarity: a thrown dimension mismatch
when the lengths differ, 0 when either vector has zero norm, and
otherwise the dot product divided by the product of the two norms.
The floating point arithmetic of the source is idealised over ℝ. -/
noncomputable def cosineSimilarity (a b : List ℚ) : Except VectorStoreError ℝ :=
  if a.length ≠ b.length then .error (.dimensionMismatch a.length b.length)
  else if normSq a = 0 ∨ normSq b = 0 then .ok 0
  else .ok (((dotProduct a b : ℚ) : ℝ) /
    (Real.sqrt ((normSq a : ℚ) : ℝ) * Real.sqrt ((normSq b : ℚ) : ℝ)))

/-- Ordering used by the sort of search, whose comparator subtracts
scores to sort in descending score order. -/
def scoreGE (a b : SearchResult) : Prop := b.score ≤ a.score

noncomputable instance : DecidableRel scoreGE :=
  fun a b => Real.decidableLE b.score a.score

instance : IsTotal SearchResult scoreGE :=
  ⟨fun a b => le_total b.score a.score⟩

instance : IsTrans SearchResult scoreGE :=
  ⟨fun _ _ _ h1 h2 => le_trans h2 h1⟩

/-- Guard of the loop of search: an item is skipped exactly when a
filter is provided and the item does not match it. -/
def excluded (f? : Option MemoryFilter) (it : MemoryItem) : Bool :=
  match f? with
  | none => false
  | some f => !matchesFilter it f

/-- Loop of search: walk the items in insertion order, skip the ones
excluded by the filter, score the rest by cosine similarity against
the query, and propagate a thrown dimension mismatch. -/
noncomputable def collectResults (q : List ℚ) (f? : Option MemoryFilter) :
    List MemoryItem → Except VectorStoreError (List SearchResult)
  | [] => .ok []
  | it :: rest =>
    if excluded f? it then collectResults q f? rest
    else
      match cosineSimilarity q it.embedding with
      | .error e => .error e
      | .ok s =>
        match collectResults q f? rest with
        | .error e => .error e
        | .ok rs => .ok ({ item := it, score := s } :: rs)

/-- InMemoryVectorStore.search: collect the scored results of the
filter-passing items, sort them in descending score order and keep at
most limit of them. -/
noncomputable def search (q : List ℚ) (limit : Nat) (f? : Option MemoryFilter)
    (m : Store) : Except VectorStoreError (List SearchResult) :=
  (collectResults q f? (storeValues m)).map fun rs =>
    (rs.insertionSort scoreGE).take limit

/-- Call of search with the limit argument omitted, which the source
defaults to 10. -/
noncomputable def searchDefault (q : List ℚ) (f? : Option MemoryFilter)
    (m : Store) : Except VectorStoreError (List SearchResult) :=
  search q 10 f? m

/-! Concrete fixtures used by counterexamples and witnesses. -/

/-- Sample metadata with every field present and one custom key. -/
def sampleMeta : MemoryMetadata :=
  { timestamp := some 100, source := some "s", tags := some ["x"]
    extra := [("k", .vNum 1)] }

/-- Sample stored item. -/
def sampleItem : MemoryItem :=
  { id := "a", text := "hello", metadata := sampleMeta, embedding := [9] }

/-- Sample one-item store. -/
def sampleStore : Store := [("a", sampleItem)]

/-- Deterministic embedding provider mapping a text to the one-element
vector holding its length. -/
def lenEmbed : String → Except String (List ℚ) := fun t => .ok [(t.length : ℚ)]

/-- Embedding provider that always fails. -/
def failEmbed : String → Except String (List ℚ) := fun _ => .error "boom"

/-! Helper lemmas about the store map. -/

theorem mapGet_mapSet_self (m : Store) (k : String) (v : MemoryItem) :
    mapGet (mapSet m k v) k = some v := by
  induction m with
  | nil => simp [mapSet, mapGet]
  | cons hd tl ih =>
    obtain ⟨k2, v2⟩ := hd
    by_cases h : k2 = k
    · simp [mapSet, h, mapGet]
    · simp [mapSet, h, mapGet, ih]

theorem mem_keys_mapSet (m : Store) (k j : String) (v : MemoryItem) :
    j ∈ (mapSet m k v).map Prod.fst ↔ j ∈ m.map Prod.fst ∨ j = k := by
  induction m with
  | nil => simp [mapSet]
  | cons hd tl ih =>
    obtain ⟨k2, v2⟩ := hd
    by_cases h : k2 = k
    · subst h
      simp [mapSet]
      tauto
    · simp [mapSet, h, ih]
      tauto

theorem nodup_mapSet (m : Store) (k : String) (v : MemoryItem)
    (h : keysNodup m) : keysNodup (mapSet m k v) := by
  induction m with
  | nil => simp [mapSet, keysNodup]
  | cons hd tl ih =>
    obtain ⟨k2, v2⟩ := hd
    unfold keysNodup at h
    simp only [List.map_cons, List.nodup_cons] at h
    by_cases hk : k2 = k
    · subst hk
      unfold keysNodup
      simpa [mapSet] using h
    · unfold keysNodup
      simp only [mapSet, if_neg hk, List.map_cons, List.nodup_cons]
      refine ⟨?_, ih h.2⟩
      intro hmem
      rcases (mem_keys_mapSet tl k k2 v).mp hmem with h1 | h1
      · exact h.1 h1
      · exact hk h1

theorem keys_mapDelete_sublist (m : Store) (k : String) :
    ((mapDelete m k).1.map Prod.fst).Sublist (m.map Prod.fst) := by
  induction m with
  | nil => simp [mapDelete]
  | cons hd tl ih =>
    obtain ⟨k2, v2⟩ := hd
    by_cases h : k2 = k
    · simp only [mapDelete, if_pos h]
      exact (List.sublist_cons_self _ _)
    · simp only [mapDelete, if_neg h, List.map_cons]
      exact ih.cons₂ k2

theorem nodup_mapDelete (m : Store) (k : String) (h : keysNodup m) :
    keysNodup (mapDelete m k).1 :=
  List.Nodup.sublist (keys_mapDelete_sublist m k) h

/-! Helper lemmas about cosine similarity and the search loop. -/

theorem dotProduct_comm (a b : List ℚ) : dotProduct a b = dotProduct b a := by
  unfold dotProduct
  rw [List.zipWith_comm_of_comm]
  exact mul_comm

theorem cosineSimilarity_error_of_ne (a b : List ℚ) (h : a.length ≠ b.length) :
    cosineSimilarity a b = .error (.dimensionMismatch a.length b.length) := by
  simp [cosineSimilarity, h]

theorem cosineSimilarity_isOk (a b : List ℚ) (h : a.length = b.length) :
    ∃ s, cosineSimilarity a b = .ok s := by
  unfold cosineSimilarity
  rw [if_neg (by simp [h])]
  by_cases h0 : normSq a = 0 ∨ normSq b = 0
  · exact ⟨0, if_pos h0⟩
  · exact ⟨_, if_neg h0⟩

theorem collectResults_ok_items (q : List ℚ) (f? : Option MemoryFilter)
    (items : List MemoryItem) (rs : List SearchResult)
    (h : collectResults q f? items = .ok rs) :
    rs.map SearchResult.item = items.filter fun it => !excluded f? it := by
  induction items generalizing rs with
  | nil =>
    simp only [collectResults] at h
    cases h
    simp
  | cons it rest ih =>
    by_cases he : excluded f? it
    · simp only [collectResults, if_pos he] at h
      simpa [List.filter_cons, he] using ih rs h
    · simp only [collectResults, if_neg he] at h
      cases hc : cosineSimilarity q it.embedding with
      | error e => rw [hc] at h; cases h
      | ok s =>
        rw [hc] at h
        cases hr : collectResults q f? rest with
        | error e => rw [hr] at h; cases h
        | ok rs0 =>
          rw [hr] at h
          cases h
          simp only [List.map_cons, List.filter_cons]
          rw [ih rs0 hr]
          simp [he]

theorem collectResults_error_of_mismatch (q : List ℚ) (f? : Option MemoryFilter)
    (items : List MemoryItem)
    (h : ∃ it ∈ items, excluded f? it = false ∧ it.embedding.length ≠ q.length) :
    ∃ e, collectResults q f? items = .error e := by
  induction items with
  | nil => simp at h
  | cons it rest ih =>
    rcases h with ⟨j, hj, hpass, hlen⟩
    rcases List.mem_cons.mp hj with rfl | hj2
    · refine ⟨.dimensionMismatch q.length j.embedding.length, ?_⟩
      simp only [collectResults, hpass, Bool.false_eq_true, if_false]
      rw [cosineSimilarity_error_of_ne q j.embedding fun hq => hlen hq.symm]
    · by_cases he : excluded f? it
      · rcases ih ⟨j, hj2, hpass, hlen⟩ with ⟨e, hcol⟩
        exact ⟨e, by simp only [collectResults, if_pos he]; exact hcol⟩
      · rcases ih ⟨j, hj2, hpass, hlen⟩ with ⟨e, hcol⟩
        cases hc : cosineSimilarity q it.embedding with
        | error e2 =>
          exact ⟨e2, by simp only [collectResults, if_neg he, hc]⟩
        | ok s =>
          exact ⟨e, by simp only [collectResults, if_neg he, hc, hcol]⟩

theorem collectResults_ok_of_match (q : List ℚ) (f? : Option MemoryFilter)
    (items : List MemoryItem)
    (h : ∀ it ∈ items, excluded f? it = false → it.embedding.length = q.length) :
    ∃ rs, collectResults q f? items = .ok rs := by
  induction items with
  | nil => exact ⟨[], rfl⟩
  | cons it rest ih =>
    rcases ih fun j hj => h j (List.mem_cons_of_mem it hj) with ⟨rs0, hr⟩
    by_cases he : excluded f? it
    · exact ⟨rs0, by simp only [collectResults, if_pos he]; exact hr⟩
    · rcases cosineSimilarity_isOk q it.embedding
        (h it (List.mem_cons_self it rest) (by simpa using he)).symm with ⟨s, hc⟩
      exact ⟨{ item := it, score := s } :: rs0,
        by simp only [collectResults, if_neg he, hc, hr]⟩

/-- Item whose embedding length 2 differs from the length 1 query used
in the search witnesses. -/
def mismatchItem : MemoryItem :=
  { id := "b", text := "t", metadata := sampleMeta, embedding := [1, 2] }

/-- Filter requiring source zz, which sampleMeta does not satisfy. -/
def sourceFilter : MemoryFilter :=
  { tags := none, source := some "zz", fromDate := none, toDate := none, extra := [] }

/-- C9: for every payload passed to add, add returns the payload
extended with the generated id and stores it unchanged, so get on the
returned id immediately yields the returned item; the committed
embedding is exactly the payload embedding (no implicit embedding) and
the commit is an unconditional Map.set (no uniqueness check on text). -/
theorem C9_add_get_roundtrip (m : Store) (newId : String) (x : ItemData) :
    (addItem m newId x).1.id = newId ∧
    (addItem m newId x).1.text = x.text ∧
    (addItem m newId x).1.metadata = x.metadata ∧
    (addItem m newId x).1.embedding = x.embedding ∧
    mapGet (addItem m newId x).2 newId = some (addItem m newId x).1 ∧
    (addItem m newId x).2 = mapSet m newId (addItem m newId x).1 :=
  ⟨rfl, rfl, rfl, rfl, mapGet_mapSet_self m newId _, rfl⟩

/-- C6: search fails with a VectorStoreError whenever some
filter-passing item has an embedding length different from the query
length; no truncation or padding happens. -/
theorem C6_search_dimension_mismatch_errors (q : List ℚ) (limit : Nat)
    (f? : Option MemoryFilter) (m : Store)
    (h : ∃ it ∈ storeValues m,
      excluded f? it = false ∧ it.embedding.length ≠ q.length) :
    ∃ e, search q limit f? m = .error e := by
  rcases collectResults_error_of_mismatch q f? (storeValues m) h with ⟨e, hc⟩
  exact ⟨e, by simp only [search, hc]; rfl⟩

/-- Witness for C6: a store holding one length 2 item makes a length 1
query fail. -/
theorem C6_witness :
    (∃ it ∈ storeValues [("b", mismatchItem)],
      excluded none it = false ∧
        it.embedding.length ≠ ([1] : List ℚ).length) ∧
    ∃ e, search [1] 10 none [("b", mismatchItem)] = .error e := by
  have h : ∃ it ∈ storeValues [("b", mismatchItem)],
      excluded none it = false ∧
        it.embedding.length ≠ ([1] : List ℚ).length :=
    ⟨mismatchItem, by simp [storeValues], rfl, by decide⟩
  exact ⟨h, C6_search_dimension_mismatch_errors [1] 10 none [("b", mismatchItem)] h⟩

/-- C10: the filter is applied before the similarity computation, so
search succeeds whenever every filter-passing item has a matching
embedding length, even if some filter-excluded item does not. -/
theorem C10_filter_shields_dimension_check (q : List ℚ) (limit : Nat)
    (f : MemoryFilter) (m : Store)
    (h : ∀ it ∈ storeValues m,
      matchesFilter it f = true → it.embedding.length = q.length) :
    ∃ rs, search q limit (some f) m = .ok rs := by
  have h2 : ∀ it ∈ storeValues m,
      excluded (some f) it = false → it.embedding.length = q.length := by
    intro it hit hex
    refine h it hit ?_
    simpa [excluded] using hex
  rcases collectResults_ok_of_match q (some f) (storeValues m) h2 with ⟨rs0, hc⟩
  exact ⟨_, by simp only [search, hc]; rfl⟩

/-- Witness for C10: a filter-excluded item of embedding length 2 does
not make a length 1 query fail. -/
theorem C10_witness :
    (∀ it ∈ storeValues [("b", mismatchItem)],
      matchesFilter it sourceFilter = true →
        it.embedding.length = ([1] : List ℚ).length) ∧
    ∃ rs, search [1] 10 (some sourceFilter) [("b", mismatchItem)] = .ok rs := by
  have h : ∀ it ∈ storeValues [("b", mismatchItem)],
      matchesFilter it sourceFilter = true →
        it.embedding.length = ([1] : List ℚ).length := by
    intro it hit hm
    have hit2 : it = mismatchItem := by simpa [storeValues] using hit
    rw [hit2] at hm
    exact absurd hm (by decide)
  exact ⟨h, C10_filter_shields_dimension_check [1] 10 sourceFilter [("b", mismatchItem)] h⟩

/-- C7: if the item exists, the patch carries a truthy new text and no
embedding, and the provider fails on that text, then update raises a
VectorStoreError wrapping the failure and the store is returned
exactly as it was (all-or-nothing). -/
theorem C7_update_embed_failure_preserves_store
    (embed : String → Except String (List ℚ)) (m : Store) (id : String)
    (u : ItemPatch) (item : MemoryItem) (t msg : String)
    (h1 : mapGet m id = some item) (h2 : u.text = some t) (h3 : t ≠ "")
    (h4 : u.embedding = none) (h5 : embed t = .error msg) :
    update embed m id u = (.error (.embeddingFailed msg), m) := by
  have hre : needsReembed u = true := by
    simp [needsReembed, h2, h4, strTruthy, h3]
  simp [update, h1, hre, h2, h5]

/-- Witness for C7: a failing provider aborts the update of the sample
store and leaves it untouched. -/
theorem C7_witness :
    mapGet sampleStore "a" = some sampleItem ∧
    (⟨some "hey", none, none⟩ : ItemPatch).text = some "hey" ∧
    "hey" ≠ "" ∧
    (⟨some "hey", none, none⟩ : ItemPatch).embedding = none ∧
    failEmbed "hey" = .error "boom" ∧
    update failEmbed sampleStore "a" ⟨some "hey", none, none⟩ =
      (.error (.embeddingFailed "boom"), sampleStore) :=
  ⟨rfl, rfl, by decide, rfl, rfl,
    C7_update_embed_failure_preserves_store failEmbed sampleStore "a"
      ⟨some "hey", none, none⟩ sampleItem "hey" "boom" rfl rfl (by decide) rfl rfl⟩

/-- C8: for equal-length vectors the cosine similarity of the store is
symmetric, is 0 whenever either argument has zero norm, and otherwise
is the dot product divided by the product of the two norms. -/
theorem C8_cosine_symmetric_zero_formula (a b : List ℚ)
    (h : a.length = b.length) :
    cosineSimilarity a b = cosineSimilarity b a ∧
    ((normSq a = 0 ∨ normSq b = 0) → cosineSimilarity a b = .ok 0) ∧
    (normSq a ≠ 0 → normSq b ≠ 0 →
      cosineSimilarity a b =
        .ok (((dotProduct a b : ℚ) : ℝ) /
          (Real.sqrt ((normSq a : ℚ) : ℝ) * Real.sqrt ((normSq b : ℚ) : ℝ)))) := by
  have hab : ¬a.length ≠ b.length := by simp [h]
  have hba : ¬b.length ≠ a.length := by simp [h]
  refine ⟨?_, ?_, ?_⟩
  · unfold cosineSimilarity
    rw [if_neg hab, if_neg hba]
    by_cases h0 : normSq a = 0 ∨ normSq b = 0
    · rw [if_pos h0, if_pos (Or.symm h0)]
    · rw [if_neg h0, if_neg fun hc => h0 (Or.symm hc)]
      congr 1
      rw [dotProduct_comm a b]
      ring
  · intro h0
    unfold cosineSimilarity
    rw [if_neg hab, if_pos h0]
  · intro ha hb
    unfold cosineSimilarity
    rw [if_neg hab, if_neg (by tauto)]

/-- Witness for C8: the theorem instantiated at the unit vectors of
length 2. -/
theorem C8_witness :
    ([1, 0] : List ℚ).length = ([0, 1] : List ℚ).length ∧
    (cosineSimilarity [1, 0] [0, 1] = cosineSimilarity [0, 1] [1, 0] ∧
    ((normSq [1, 0] = 0 ∨ normSq [0, 1] = 0) →
      cosineSimilarity [1, 0] [0, 1] = .ok 0) ∧
    (normSq [1, 0] ≠ 0 → normSq [0, 1] ≠ 0 →
      cosineSimilarity [1, 0] [0, 1] =
        .ok (((dotProduct [1, 0] [0, 1] : ℚ) : ℝ) /
          (Real.sqrt ((normSq [1, 0] : ℚ) : ℝ) *
            Real.sqrt ((normSq [0, 1] : ℚ) : ℝ))))) :=
  ⟨rfl, C8_cosine_symmetric_zero_formula [1, 0] [0, 1] rfl⟩

/-- C1 (failing input): updating the sample item with the empty string
as new text and no embedding commits the empty text together with the
stale embedding 9, because the truthiness guard of the recomputation
skips the empty string; the provider maps the empty string to the
vector 0, so the committed embedding is not the embedding of the
committed text. -/
theorem C1_empty_text_update_keeps_stale_embedding :
    update lenEmbed sampleStore "a" ⟨some "", none, none⟩ =
      (.ok (some ⟨"a", "", sampleMeta, [9]⟩),
        [("a", ⟨"a", "", sampleMeta, [9]⟩)]) ∧
    lenEmbed "" = .ok [0] ∧
    ([9] : List ℚ) ≠ [0] :=
  ⟨rfl, rfl, by decide⟩

/-- C2 (failing input): updating the sample item with an empty
metadata record commits the empty record in place of the stored
metadata, because the spread already replaced the metadata before the
merge branch skipped the empty patch; the source key, not named in the
patch, is lost instead of preserved. -/
theorem C2_empty_metadata_patch_wipes_metadata :
    sampleItem.metadata.source = some "s" ∧
    update lenEmbed sampleStore "a" ⟨none, some ⟨none, none, none, []⟩, none⟩ =
      (.ok (some ⟨"a", "hello", ⟨none, none, none, []⟩, [9]⟩),
        [("a", ⟨"a", "hello", ⟨none, none, none, []⟩, [9]⟩)]) ∧
    (⟨none, none, none, []⟩ : MemoryMetadata).source = none :=
  ⟨rfl, rfl, rfl⟩

/-- Counterexample to C3 as stated: add commits items of embedding
lengths 1 and 2 into the same store without any check, so the
embedding-length constancy is not an enforced invariant. -/
theorem C3_counterexample :
    mapGet (addItem (addItem [] "id1" ⟨"t1", sampleMeta, [1]⟩).2 "id2"
        ⟨"t2", sampleMeta, [1, 2]⟩).2 "id1" =
      some ⟨"id1", "t1", sampleMeta, [1]⟩ ∧
    mapGet (addItem (addItem [] "id1" ⟨"t1", sampleMeta, [1]⟩).2 "id2"
        ⟨"t2", sampleMeta, [1, 2]⟩).2 "id2" =
      some ⟨"id2", "t2", sampleMeta, [1, 2]⟩ ∧
    (⟨"id1", "t1", sampleMeta, [1]⟩ : MemoryItem).embedding.length ≠
      (⟨"id2", "t2", sampleMeta, [1, 2]⟩ : MemoryItem).embedding.length :=
  ⟨rfl, rfl, by decide⟩

/-- C3 (amended): every mutating operation of the store preserves the
invariant that each id occurs at most once, since items live in a map
keyed by id; embedding-length constancy is not checked by add or
update. -/
theorem C3_amended_key_uniqueness (embed : String → Except String (List ℚ))
    (m : Store) (id : String) (x : ItemData) (u : ItemPatch)
    (h : keysNodup m) :
    keysNodup (addItem m id x).2 ∧
    keysNodup (update embed m id u).2 ∧
    keysNodup (deleteItem m id).2 ∧
    keysNodup clearStore := by
  refine ⟨nodup_mapSet m id _ h, ?_, nodup_mapDelete m id h,
    by simp [clearStore, keysNodup]⟩
  unfold update
  cases hg : mapGet m id with
  | none => exact h
  | some item =>
    dsimp only
    split
    · exact h
    · exact nodup_mapSet m id _ h

/-- Witness for the amended C3: the sample store has distinct keys and
the operations keep it so. -/
theorem C3_amended_witness :
    keysNodup sampleStore ∧
    (keysNodup (addItem sampleStore "b" ⟨"t1", sampleMeta, [1]⟩).2 ∧
    keysNodup (update lenEmbed sampleStore "b" ⟨none, none, none⟩).2 ∧
    keysNodup (deleteItem sampleStore "b").2 ∧
    keysNodup clearStore) := by
  have h : keysNodup sampleStore := by
    unfold keysNodup sampleStore
    decide
  exact ⟨h, C3_amended_key_uniqueness lenEmbed sampleStore "b"
    ⟨"t1", sampleMeta, [1]⟩ ⟨none, none, none⟩ h⟩

/-- C4: a successful search returns at most limit results sorted in
non-increasing score order; when the limit is at least the number of
filter-passing items, every filter-passing item appears among the
results; omitting the limit means limit 10. -/
theorem C4_search_limit_and_order (q : List ℚ) (limit : Nat)
    (f? : Option MemoryFilter) (m : Store) (rs : List SearchResult)
    (h : search q limit f? m = .ok rs) :
    rs.length ≤ limit ∧
    List.Sorted scoreGE rs ∧
    ((storeValues m).countP (fun it => !excluded f? it) ≤ limit →
      rs.length = (storeValues m).countP (fun it => !excluded f? it) ∧
      ∀ it ∈ storeValues m, excluded f? it = false → ∃ r ∈ rs, r.item = it) ∧
    searchDefault q f? m = search q 10 f? m := by
  unfold search at h
  cases hc : collectResults q f? (storeValues m) with
  | error e => rw [hc] at h; cases h
  | ok rs0 =>
    rw [hc] at h
    have hrs : rs = (rs0.insertionSort scoreGE).take limit := by
      cases h
      rfl
    have hitems := collectResults_ok_items q f? (storeValues m) rs0 hc
    have hlen0 : rs0.length = (storeValues m).countP fun it => !excluded f? it := by
      have h1 : (rs0.map SearchResult.item).length = rs0.length := List.length_map _ _
      rw [hitems] at h1
      rw [← h1, List.countP_eq_length_filter]
    refine ⟨?_, ?_, ?_, rfl⟩
    · rw [hrs, List.length_take]
      exact min_le_left _ _
    · rw [hrs]
      exact List.Pairwise.sublist (List.take_sublist _ _)
        (List.sorted_insertionSort scoreGE rs0)
    · intro hle
      have hfull : (rs0.insertionSort scoreGE).take limit = rs0.insertionSort scoreGE := by
        refine List.take_of_length_le ?_
        rw [List.length_insertionSort, hlen0]
        exact hle
      constructor
      · rw [hrs, hfull, List.length_insertionSort, hlen0]
      · intro it hit hpass
        have hmem : it ∈ rs0.map SearchResult.item := by
          rw [hitems]
          exact List.mem_filter.mpr ⟨hit, by simp [hpass]⟩
        rcases List.mem_map.mp hmem with ⟨r, hr, hri⟩
        refine ⟨r, ?_, hri⟩
        rw [hrs, hfull]
        exact (List.mem_insertionSort scoreGE).mpr hr

/-- Witness for C4: the search of the empty store succeeds with the
empty result list, which satisfies every clause. -/
theorem C4_witness :
    search [1] 10 none [] = .ok [] ∧
    (([] : List SearchResult).length ≤ 10 ∧
    List.Sorted scoreGE ([] : List SearchResult) ∧
    ((storeValues ([] : Store)).countP (fun it => !excluded none it) ≤ 10 →
      ([] : List SearchResult).length =
        (storeValues ([] : Store)).countP (fun it => !excluded none it) ∧
      ∀ it ∈ storeValues ([] : Store), excluded none it = false →
        ∃ r ∈ ([] : List SearchResult), r.item = it) ∧
    searchDefault [1] none ([] : Store) = search [1] 10 none ([] : Store)) :=
  ⟨rfl, C4_search_limit_and_order [1] 10 none [] [] rfl⟩

/-- Specification-side predicate following the words of claim C5: the
source clause is bare exact equality whenever a source is present, the
date clauses are unconditional inclusive bounds, and the custom
clauses require a structurally equal value.  It differs from the
source matchesFilter on truthiness-skipped clauses. -/
def claimFilterSpec (item : MemoryItem) (f : MemoryFilter) : Bool :=
  (match f.tags with
   | some ts =>
     if ts.isEmpty then true
     else
       match item.metadata.tags with
       | some mts => ts.any fun t => mts.contains t
       | none => false
   | none => true) &&
  (match f.source with
   | some s => item.metadata.source == some s
   | none => true) &&
  (match f.fromDate with
   | some d =>
     match item.metadata.timestamp with
     | some t => decide (d ≤ t)
     | none => false
   | none => true) &&
  (match f.toDate with
   | some d =>
     match item.metadata.timestamp with
     | some t => decide (t ≤ d)
     | none => false
   | none => true) &&
  (f.extra.all fun kv =>
    isStdKey kv.1 ||
      match mdIndex item.metadata kv.1 with
      | some w => jvalEq w kv.2
      | none => false)

/-- Filter whose source is the empty string, which the source skips
while claim C5 reads it as requiring equality. -/
def emptySourceFilter : MemoryFilter :=
  { tags := none, source := some "", fromDate := none, toDate := none, extra := [] }

/-- Counterexample to C5 as stated: the sample item, whose source is
the string s, passes a filter whose source is the empty string even
though the sources are not equal, because a falsy filter source skips
the clause entirely. -/
theorem C5_counterexample :
    matchesFilter sampleItem emptySourceFilter = true ∧
    sampleItem.metadata.source ≠ emptySourceFilter.source ∧
    claimFilterSpec sampleItem emptySourceFilter = false :=
  ⟨rfl, by decide, rfl⟩

theorem tagsClauseOk_iff (md : MemoryMetadata) (f : MemoryFilter) :
    tagsClauseOk md f = true ↔
      ∀ ts, f.tags = some ts → ts ≠ [] →
        ∃ mts, md.tags = some mts ∧ ∃ t, t ∈ ts ∧ t ∈ mts := by
  unfold tagsClauseOk
  cases hft : f.tags with
  | none => simp
  | some ts =>
    dsimp only
    cases ts with
    | nil => simp
    | cons t0 rest =>
      rw [if_pos (by simp)]
      cases md.tags with
      | none => simp
      | some mts =>
        simp [List.any_eq_true]

theorem sourceClauseOk_iff (md : MemoryMetadata) (f : MemoryFilter) :
    sourceClauseOk md f = true ↔
      ∀ s, f.source = some s → s ≠ "" → md.source = some s := by
  unfold sourceClauseOk
  cases f.source with
  | none => simp
  | some s =>
    by_cases hs : s = ""
    · subst hs
      simp [strTruthy]
    · simp [strTruthy, hs]

theorem fromDateOk_iff (md : MemoryMetadata) (f : MemoryFilter) :
    fromDateOk md f = true ↔
      ∀ d, f.fromDate = some d → d ≠ 0 →
        ∀ t, md.timestamp = some t → d ≤ t := by
  unfold fromDateOk
  cases f.fromDate with
  | none => simp
  | some d =>
    by_cases hd : d = 0
    · subst hd
      simp [numTruthy]
    · cases md.timestamp with
      | none => simp [numTruthy, hd, tsLt]
      | some t => simp [numTruthy, hd, tsLt, not_lt]

theorem toDateOk_iff (md : MemoryMetadata) (f : MemoryFilter) :
    toDateOk md f = true ↔
      ∀ d, f.toDate = some d → d ≠ 0 →
        ∀ t, md.timestamp = some t → t ≤ d := by
  unfold toDateOk
  cases f.toDate with
  | none => simp
  | some d =>
    by_cases hd : d = 0
    · subst hd
      simp [numTruthy]
    · cases md.timestamp with
      | none => simp [numTruthy, hd, tsGt]
      | some t => simp [numTruthy, hd, tsGt, not_lt]

theorem extraClausesOk_iff (md : MemoryMetadata) (f : MemoryFilter) :
    extraClausesOk md f = true ↔
      ∀ k v, (k, v) ∈ f.extra → isStdKey k = false →
        ∃ w, mdIndex md k = some w ∧ jsStrictEq w v = true := by
  unfold extraClausesOk
  rw [List.all_eq_true]
  constructor
  · intro h k v hkv hstd
    have h2 := h (k, v) hkv
    rw [hstd] at h2
    simp only [Bool.false_or] at h2
    cases hmd : mdIndex md k with
    | none => rw [hmd] at h2; cases h2
    | some w => rw [hmd] at h2; exact ⟨w, rfl, h2⟩
  · intro h kv hkv
    cases hstd : isStdKey kv.1 with
    | true => simp
    | false =>
      rcases h kv.1 kv.2 hkv hstd with ⟨w, hw, heq⟩
      simp only [Bool.false_or, hw, heq]

/-- C5 (amended): matchesFilter is the conjunction of its clauses with
the truthiness exceptions of the source: the tags clause requires a
shared tag and is skipped when the filter tags are empty or absent;
the source clause requires exact equality unless the filter source is
the empty string, which skips it; fromDate and toDate are inclusive
bounds, each skipped when the bound is 0, and an item without a
timestamp passes them; every other filter key must be strictly matched
by the item metadata, a missing key failing and array values never
matching because they compare by reference; an absent filter excludes
nothing (and an empty filter satisfies every clause vacuously). -/
theorem C5_amended_filter_semantics (item : MemoryItem) (f : MemoryFilter) :
    (matchesFilter item f = true ↔
      ((∀ ts, f.tags = some ts → ts ≠ [] →
        ∃ mts, item.metadata.tags = some mts ∧ ∃ t, t ∈ ts ∧ t ∈ mts) ∧
      (∀ s, f.source = some s → s ≠ "" → item.metadata.source = some s) ∧
      (∀ d, f.fromDate = some d → d ≠ 0 →
        ∀ t, item.metadata.timestamp = some t → d ≤ t) ∧
      (∀ d, f.toDate = some d → d ≠ 0 →
        ∀ t, item.metadata.timestamp = some t → t ≤ d) ∧
      (∀ k v, (k, v) ∈ f.extra → isStdKey k = false →
        ∃ w, mdIndex item.metadata k = some w ∧ jsStrictEq w v = true))) ∧
    excluded none item = false := by
  refine ⟨?_, rfl⟩
  unfold matchesFilter
  simp only [Bool.and_eq_true]
  rw [tagsClauseOk_iff, sourceClauseOk_iff, fromDateOk_iff, toDateOk_iff,
    extraClausesOk_iff]
  tauto

end Aleph10
